import Mathlib

/-!
# Flux licensing server — formal model

Shallow embedding of `src/Flux/app.py` (Flask + sqlite3 licensing server).
The database is modelled as explicit state (`DB`): the `licenses` and
`activations` tables as lists of records, with the AUTOINCREMENT counters
carried alongside.  Timestamps are `Int` (seconds); `datetime.utcnow()`
becomes an explicit `now : Int` argument, matching how the code threads a
single `now` through each request.

Python string helpers used by the code (`str.strip`, `str.upper`,
`int(...)`, `startswith`/`endswith` on one-character strings) are modelled
at the `List Char` level: ASCII-faithful, executable, and with good lemma
support.
-/

namespace Flux

/-! ## Python string primitives -/

/-- The single-quote character, used by `_clean` for quote stripping. -/
def squote : Char := Char.ofNat 39

/-- The double-quote character, used by `_clean` for quote stripping. -/
def dquote : Char := Char.ofNat 34

/-- Python `str.strip()` (ASCII whitespace): drop whitespace from both ends. -/
def pyStrip (s : String) : String :=
  String.mk (((s.toList.dropWhile Char.isWhitespace).reverse.dropWhile
      Char.isWhitespace).reverse)

/-- Python `str.upper()` (ASCII): uppercase every character. -/
def pyUpper (s : String) : String :=
  String.mk (s.toList.map Char.toUpper)

/-- Model of `_clean` (app.py lines 11-15): strip, then if the result is wrapped in
matching single or double quotes, drop the first and last character
(Python `s[1:-1]`) and strip again. -/
def pyClean (s : String) : String :=
  let t := (pyStrip s).toList
  if (t.head? == some dquote && t.getLast? == some dquote) ||
     (t.head? == some squote && t.getLast? == some squote) then
    pyStrip (String.mk ((t.drop 1).dropLast))
  else
    String.mk t

/-- Value of a digit run, underscores removed (helper for `pyInt`). -/
def digitsVal (l : List Char) : Nat :=
  l.foldl (fun acc c => acc * 10 + (c.toNat - 48)) 0

/-- Digit-run tail of the Python integer literal grammar:
`(("_")? digit)*` — an underscore must be followed by a digit. -/
def pyDigitsRest : List Char → Bool
  | [] => true
  | c :: cs =>
    if c.isDigit then pyDigitsRest cs
    else if c == Char.ofNat 95 then
      match cs with
      | d :: ds => d.isDigit && pyDigitsRest ds
      | [] => false
    else false

/-- A nonempty digit run with optional single underscores between digits. -/
def pyDigitsOk : List Char → Bool
  | [] => false
  | c :: cs => c.isDigit && pyDigitsRest cs

/-- Python `int(str)`: strip whitespace, optional sign, digits (with
underscore separators).  `none` models the `ValueError` branch. -/
def pyInt (s : String) : Option Int :=
  let l := (pyStrip s).toList
  match l with
  | [] => none
  | c :: rest =>
    if c == Char.ofNat 43 then
      if pyDigitsOk rest then
        some (digitsVal (rest.filter (fun d => !(d == Char.ofNat 95)))) else none
    else if c == Char.ofNat 45 then
      if pyDigitsOk rest then
        some (-(digitsVal (rest.filter (fun d => !(d == Char.ofNat 95))) : Int))
      else none
    else
      if pyDigitsOk l then
        some (digitsVal (l.filter (fun d => !(d == Char.ofNat 95)))) else none

/-! ## Data model (tables `licenses` and `activations`, app.py lines 37-58) -/

/-- The persisted `expires_at` column value, when present.  sqlite with
`PARSE_DECLTYPES` normally hands back a parsed datetime (`dt`), but the code
also defends against a raw string (app.py lines 275-279): a string either
parses via `datetime.fromisoformat` to a timestamp (`strGood`) or fails to
parse (`strBad`), the stdlib parse itself being abstracted into which
constructor the stored value carries. -/
inductive ExpiryVal where
  | dt (t : Int)
  | strGood (t : Int)
  | strBad
  deriving Repr, DecidableEq

/-- A row of the `licenses` table. -/
structure License where
  id : Nat
  lic_key : String
  created_at : Int
  expires_at : Option ExpiryVal
  max_activations : Int
  revoked : Bool
  notes : String
  deriving Repr, DecidableEq

/-- A row of the `activations` table. -/
structure Activation where
  id : Nat
  license_id : Nat
  machine_id : String
  activated_at : Int
  last_seen : Int
  deriving Repr, DecidableEq

/-- The database state: both tables plus their AUTOINCREMENT counters. -/
structure DB where
  licenses : List License
  activations : List Activation
  next_license_id : Nat
  next_activation_id : Nat
  deriving Repr, DecidableEq

/-! ## Store queries (the SQL statements of app.py) -/

/-- Query `SELECT * FROM licenses WHERE lic_key = ?` + `fetchone` (line 268). -/
def findLicense (db : DB) (k : String) : Option License :=
  db.licenses.find? (fun l => l.lic_key == k)

/-- Query `SELECT COUNT(*) FROM activations WHERE license_id = ?` (lines 283, 298). -/
def countActivations (db : DB) (lid : Nat) : Nat :=
  (db.activations.filter (fun a => a.license_id == lid)).length

/-- Query `SELECT * FROM activations WHERE license_id = ? AND machine_id = ?`
plus `fetchone` (lines 284-285). -/
def findActivation (db : DB) (lid : Nat) (m : String) : Option Activation :=
  db.activations.find? (fun a => a.license_id == lid && a.machine_id == m)

/-- Statement `UPDATE activations SET last_seen = ? WHERE id = ?` (line 287). -/
def touchActivation (db : DB) (aid : Nat) (now : Int) : DB :=
  { db with activations :=
      db.activations.map (fun a =>
        if a.id == aid then { a with last_seen := now } else a) }

/-- Statement `INSERT INTO activations(license_id, machine_id, activated_at, last_seen)`
(lines 292-295), as the code runs it: unconditional append. -/
def insertActivation (db : DB) (lid : Nat) (m : String) (now : Int) : DB :=
  { db with
    activations := db.activations ++
      [{ id := db.next_activation_id, license_id := lid, machine_id := m,
         activated_at := now, last_seen := now }],
    next_activation_id := db.next_activation_id + 1 }

/-! ## Validation (api_validate, app.py lines 255-305) -/

/-- Outcome of a validation request, one constructor per returned JSON
body of `api_validate`. -/
inductive Verdict where
  | missingKey
  | missingMachineId
  | notFound
  | revoked
  | expired
  | activationLimit
  | success (key : String) (expires_at : Option ExpiryVal)
      (remaining_activations : Int) (notes : String)
  deriving Repr, DecidableEq

/-- Whether a verdict is the `valid: true` response. -/
def Verdict.isSuccess : Verdict → Bool
  | .success _ _ _ _ => true
  | _ => false

/-- The success response body (lines 298-305): remaining =
`max(0, max_activations - COUNT(*))`, recounted after the mutation. -/
def successVerdict (db : DB) (lic : License) (lic_key : String) : Verdict :=
  .success lic_key lic.expires_at
    (max 0 (lic.max_activations - (countActivations db lic.id : Int)))
    lic.notes

/-- Lines 283-296: count activations, look up the (license, machine) row;
if present touch `last_seen`, else enforce the cap and insert. -/
def activationStep (db : DB) (lic : License) (lic_key m : String)
    (now : Int) : Verdict × DB :=
  let activation_count := countActivations db lic.id
  match findActivation db lic.id m with
  | some existing =>
    let db2 := touchActivation db existing.id now
    (successVerdict db2 lic lic_key, db2)
  | none =>
    if (activation_count : Int) ≥ lic.max_activations then
      (.activationLimit, db)
    else
      let db2 := insertActivation db lic.id m now
      (successVerdict db2 lic lic_key, db2)

/-- The body of `api_validate` after input cleaning (lines 262-305):
`lic_key` and `m` are already cleaned/uppercased. -/
def validateCleaned (db : DB) (lic_key m : String) (now : Int) :
    Verdict × DB :=
  if lic_key = "" then (.missingKey, db)
  else if m = "" then (.missingMachineId, db)
  else
    match findLicense db lic_key with
    | none => (.notFound, db)
    | some lic =>
      if lic.revoked then (.revoked, db)
      else
        match lic.expires_at with
        | none => activationStep db lic lic_key m now
        | some (.dt t) =>
          if now > t then (.expired, db)
          else activationStep db lic lic_key m now
        | some (.strGood t) =>
          if now > t then (.expired, db)
          else activationStep db lic lic_key m now
        | some .strBad => (.expired, db)

/-- Handler `api_validate` (lines 255-305): clean and uppercase the key
(line 258), clean the machine id (line 259), then run the body. -/
def api_validate (db : DB) (key machine_id : String) (now : Int) :
    Verdict × DB :=
  validateCleaned db (pyUpper (pyClean key)) (pyClean machine_id) now

/-- A sequence of validation requests, applied in order. -/
def runValidateCalls (db : DB) (calls : List (String × String × Int)) : DB :=
  calls.foldl (fun d c => (api_validate d c.1 c.2.1 c.2.2).2) db

/-! ## Key generation and license creation -/

/-- Alphabet `string.ascii_uppercase + string.digits` (line 184). -/
def keyAlphabet : List Char := "ABCDEFGHIJKLMNOPQRSTUVWXYZ0123456789".toList

/-- Model of `generate_key` (lines 183-188).  `secrets.choice(alphabet)` is
nondeterministic; the model takes the draws as a function `rand` from the
draw index to a natural number, reduced mod the alphabet size, so every
possible output of the Python function is `generate_key` at some `rand`.
The Python parameters are `pre` = prefix (default `"FLUX"`), `groups` = 4,
`group_len` = 5. -/
def generate_key (pre : String) (groups group_len : Nat)
    (rand : Nat → Nat) : String :=
  let parts := (List.range groups).map (fun g =>
    String.mk ((List.range group_len).map (fun i =>
      keyAlphabet.getD (rand (g * group_len + i) % keyAlphabet.length) 'A')))
  pre ++ "-" ++ String.intercalate "-" parts

/-- Model of `parse_days` (lines 190-197): `int(...)` failure or a non-positive
value both give `None`. -/
def parse_days (days_str : String) : Option Int :=
  match pyInt days_str with
  | none => none
  | some d => if d ≤ 0 then none else some d

/-- Seconds per day, for `timedelta(days=d)`. -/
def secondsPerDay : Int := 86400

/-- Handler `api_create_key` (lines 200-220): coerce days and max_activations,
clean notes, insert the license row.  The generated key arrives as the
`lic_key` argument (`generate_key()` is called by the handler).  The
`UNIQUE` constraint on `lic_key` makes the INSERT raise on a duplicate
key, modelled as `Except.error`.  On success, returns the new state and
the created row. -/
def api_create_key (db : DB) (days_str max_str notes_str lic_key : String)
    (now : Int) : Except Unit (DB × License) :=
  let days := parse_days days_str
  let maxAct : Int :=
    match pyInt (pyClean max_str) with
    | none => 1
    | some v => max 1 v
  let notes := pyClean notes_str
  let expires_at : Option ExpiryVal :=
    match days with
    | none => none
    | some d => some (.dt (now + d * secondsPerDay))
  if db.licenses.any (fun l => l.lic_key == lic_key) then
    .error ()
  else
    let lic : License :=
      { id := db.next_license_id, lic_key := lic_key, created_at := now,
        expires_at := expires_at, max_activations := maxAct,
        revoked := false, notes := notes }
    .ok ({ db with
           licenses := db.licenses ++ [lic],
           next_license_id := db.next_license_id + 1 }, lic)

/-- Whether the expiry check of lines 273-281 lets the request through:
no expiry at all, or a (parsed) expiry not in the past.  An unparseable
stored value never passes. -/
def expiryPasses (e : Option ExpiryVal) (now : Int) : Bool :=
  match e with
  | none => true
  | some (.dt t) => decide (¬ now > t)
  | some (.strGood t) => decide (¬ now > t)
  | some .strBad => false

/-- Repeated validation of the same request: the state after `n` calls. -/
def iterValidate (db : DB) (k m : String) (now : Int) : Nat → DB
  | 0 => db
  | n + 1 => (api_validate (iterValidate db k m now n) k m now).2

/-- License ids are pairwise distinct (the AUTOINCREMENT primary key). -/
def LicenseIdsNodup (db : DB) : Prop := (db.licenses.map License.id).Nodup

/-- The §3 invariant: no license's activation count exceeds its
`max_activations`. -/
def CountInv (db : DB) : Prop :=
  ∀ lic ∈ db.licenses,
    (countActivations db lic.id : Int) ≤ lic.max_activations

instance (db : DB) : Decidable (LicenseIdsNodup db) := by
  unfold LicenseIdsNodup
  infer_instance

instance (db : DB) : Decidable (CountInv db) := by
  unfold CountInv
  infer_instance

/-! ## Concurrency interleaving model for the activation insert

The INSERT of lines 292-295 is subject to the UNIQUE(license_id, machine_id)
constraint (line 55): executed while the pair already exists, sqlite raises
`IntegrityError`.  `api_validate` wraps the INSERT in no try/except, so such
an error propagates out of the handler.  To express the §5 race, the
statements of lines 283-296 are modelled with the count/lookup reading one
state (`dbRead`) and the INSERT executing against a possibly different state
(`dbWrite`), standing for a concurrent request's insert landing between the
lookup and the INSERT.  `Except.error ()` is the propagated, unhandled
`IntegrityError`. -/

/-- The INSERT honoring the UNIQUE(license_id, machine_id) constraint:
errors when the pair already exists. -/
def insertActivationChecked (db : DB) (lid : Nat) (m : String) (now : Int) :
    Except Unit DB :=
  if db.activations.any (fun a => a.license_id == lid && a.machine_id == m) then
    .error ()
  else
    .ok (insertActivation db lid m now)

/-- Lines 283-296 with the read and write states split as described above.
`dbRead = dbWrite` recovers `activationStep` exactly. -/
def activationStepInterleaved (dbRead dbWrite : DB) (lic : License)
    (lic_key m : String) (now : Int) : Except Unit (Verdict × DB) :=
  let activation_count := countActivations dbRead lic.id
  match findActivation dbRead lic.id m with
  | some existing =>
    let db2 := touchActivation dbWrite existing.id now
    .ok (successVerdict db2 lic lic_key, db2)
  | none =>
    if (activation_count : Int) ≥ lic.max_activations then
      .ok (.activationLimit, dbWrite)
    else
      match insertActivationChecked dbWrite lic.id m now with
      | .error e => .error e
      | .ok db2 => .ok (successVerdict db2 lic lic_key, db2)

/-! ## Concrete states used by the witnesses -/

/-- A license with one activation slot and no expiry. -/
def licW : License :=
  { id := 1, lic_key := "FLUX-AAAAA-BBBBB-CCCCC-DDDDD", created_at := 0,
    expires_at := none, max_activations := 1, revoked := false, notes := "" }

/-- A fresh store holding only `licW`. -/
def dbW : DB :=
  { licenses := [licW], activations := [], next_license_id := 2,
    next_activation_id := 1 }

/-- A license with two activation slots and no expiry. -/
def licW2 : License :=
  { id := 1, lic_key := "FLUX-AAAAA-BBBBB-CCCCC-DDDDD", created_at := 0,
    expires_at := none, max_activations := 2, revoked := false, notes := "" }

/-- A fresh store holding only `licW2`. -/
def dbW2 : DB :=
  { licenses := [licW2], activations := [], next_license_id := 2,
    next_activation_id := 1 }

/-- A revoked license. -/
def licRevoked : License :=
  { id := 1, lic_key := "FLUX-AAAAA-BBBBB-CCCCC-DDDDD", created_at := 0,
    expires_at := none, max_activations := 1, revoked := true, notes := "" }

/-- A store holding only the revoked license. -/
def dbRevoked : DB :=
  { licenses := [licRevoked], activations := [], next_license_id := 2,
    next_activation_id := 1 }

/-- A license whose stored `expires_at` is an unparseable string. -/
def licBadExpiry : License :=
  { id := 1, lic_key := "FLUX-AAAAA-BBBBB-CCCCC-DDDDD", created_at := 0,
    expires_at := some .strBad, max_activations := 1, revoked := false,
    notes := "" }

/-- A store holding only the bad-expiry license. -/
def dbBadExpiry : DB :=
  { licenses := [licBadExpiry], activations := [], next_license_id := 2,
    next_activation_id := 1 }

/-- The store before any license exists. -/
def emptyDB : DB :=
  { licenses := [], activations := [], next_license_id := 1,
    next_activation_id := 1 }

/-- Store `dbW` with machine `m1` already bound to license 1. -/
def dbWBound : DB :=
  { licenses := [licW], activations :=
      [{ id := 1, license_id := 1, machine_id := "m1", activated_at := 5,
         last_seen := 5 }],
    next_license_id := 2, next_activation_id := 2 }

/-! ## General list/string helper lemmas -/

theorem toList_append (s t : String) : (s ++ t).toList = s.toList ++ t.toList :=
  String.data_append s t

theorem toList_mk (l : List Char) : (String.mk l).toList = l := rfl

theorem dropWhile_eq_self_of_not {α : Type} {p : α → Bool} {l : List α}
    (h : ∀ c ∈ l, p c = false) : l.dropWhile p = l := by
  cases l with
  | nil => rfl
  | cons a t =>
    rw [List.dropWhile_cons, h a (List.mem_cons_self a t)]
    simp

theorem map_eq_self_of_fix {α : Type} {f : α → α} {l : List α}
    (h : ∀ c ∈ l, f c = c) : l.map f = l := by
  induction l with
  | nil => rfl
  | cons a t ih =>
    rw [List.map_cons, h a (List.mem_cons_self a t),
      ih (fun c hc => h c (List.mem_cons_of_mem a hc))]

/-- Strings all of whose characters are non-whitespace are fixed by `pyStrip`. -/
theorem pyStrip_eq_self {s : String}
    (h : ∀ c ∈ s.toList, c.isWhitespace = false) : pyStrip s = s := by
  unfold pyStrip
  rw [dropWhile_eq_self_of_not h,
    dropWhile_eq_self_of_not (fun c hc => h c (List.mem_reverse.mp hc)),
    List.reverse_reverse]
  rfl

/-- Strings all of whose characters are uppercase-fixed are fixed by `pyUpper`. -/
theorem pyUpper_eq_self {s : String}
    (h : ∀ c ∈ s.toList, c.toUpper = c) : pyUpper s = s := by
  unfold pyUpper
  rw [map_eq_self_of_fix h]
  rfl

/-- Strings with no whitespace and no quote characters are fixed by `pyClean`. -/
theorem pyClean_eq_self {s : String}
    (hws : ∀ c ∈ s.toList, c.isWhitespace = false)
    (hq : ∀ c ∈ s.toList, c ≠ dquote ∧ c ≠ squote) : pyClean s = s := by
  unfold pyClean
  rw [pyStrip_eq_self hws]
  have hcond : ((s.toList.head? == some dquote && s.toList.getLast? == some dquote) ||
      (s.toList.head? == some squote && s.toList.getLast? == some squote)) = false := by
    cases hl : s.toList with
    | nil => rfl
    | cons a t0 =>
      have ha := hq a (hl ▸ List.mem_cons_self a t0)
      simp [ha.1, ha.2]
  simp only [hcond, Bool.false_eq_true, if_false]
  rfl

/-! ## Key alphabet and generate_key lemmas -/

/-- Every alphabet character is non-whitespace, non-lowercase, fixed by
uppercasing, and is not a quote character. -/
theorem keyAlphabet_props : ∀ c ∈ keyAlphabet, c.isWhitespace = false ∧
    c.isLower = false ∧ c.toUpper = c ∧ c ≠ dquote ∧ c ≠ squote := by decide

theorem keyAlphabet_getD_mem (n : Nat) :
    keyAlphabet.getD (n % keyAlphabet.length) 'A' ∈ keyAlphabet := by
  have h : n % keyAlphabet.length < keyAlphabet.length :=
    Nat.mod_lt _ (by decide)
  rw [List.getD_eq_getElem?_getD, List.getElem?_eq_getElem h]
  exact List.getElem_mem h

theorem intercalate_go_nil (acc s : String) :
    String.intercalate.go acc s [] = acc := rfl

theorem intercalate_go_cons (acc s a : String) (as : List String) :
    String.intercalate.go acc s (a :: as) =
      String.intercalate.go (acc ++ s ++ a) s as := rfl

/-- A character property closed under the separator, the accumulator and all
parts holds of every character of `String.intercalate.go`. -/
theorem intercalate_go_chars (sep : String) (P : Char → Prop)
    (hsep : ∀ c ∈ sep.toList, P c) (parts : List String) :
    ∀ (acc : String), (∀ c ∈ acc.toList, P c) →
      (∀ p ∈ parts, ∀ c ∈ p.toList, P c) →
      ∀ c ∈ (String.intercalate.go acc sep parts).toList, P c := by
  induction parts with
  | nil =>
    intro acc hacc _ c hc
    rw [intercalate_go_nil] at hc
    exact hacc c hc
  | cons p ps ih =>
    intro acc hacc hparts c hc
    rw [intercalate_go_cons] at hc
    refine ih (acc ++ sep ++ p) ?_ ?_ c hc
    · intro d hd
      rw [toList_append, toList_append] at hd
      rcases List.mem_append.mp hd with hd2 | hd2
      · rcases List.mem_append.mp hd2 with hd3 | hd3
        · exact hacc d hd3
        · exact hsep d hd3
      · exact hparts p (List.mem_cons_self p ps) d hd2
    · exact fun q hq => hparts q (List.mem_cons_of_mem p hq)

/-- A character property holding of the separator and every part holds of
every character of `String.intercalate`. -/
theorem intercalate_chars (sep : String) (parts : List String)
    (P : Char → Prop) (hsep : ∀ c ∈ sep.toList, P c)
    (hparts : ∀ p ∈ parts, ∀ c ∈ p.toList, P c) :
    ∀ c ∈ (String.intercalate sep parts).toList, P c := by
  cases parts with
  | nil => intro c hc; simp [String.intercalate] at hc
  | cons p ps =>
    intro c hc
    unfold String.intercalate at hc
    exact intercalate_go_chars sep P hsep ps p
      (hparts p (List.mem_cons_self p ps))
      (fun q hq => hparts q (List.mem_cons_of_mem p hq)) c hc

/-- Every character of a generated key is an alphabet character or the
separator or one of the prefix characters `F`, `L`, `U`, `X`. -/
theorem generate_key_chars (rand : Nat → Nat) :
    ∀ c ∈ (generate_key "FLUX" 4 5 rand).toList,
      c ∈ keyAlphabet ∨ c = '-' := by
  intro c hc
  unfold generate_key at hc
  rw [toList_append, toList_append] at hc
  rcases List.mem_append.mp hc with hd | hd
  · rcases List.mem_append.mp hd with hd2 | hd2
    · -- characters of "FLUX" are alphabet members
      left
      have : c ∈ ['F', 'L', 'U', 'X'] := hd2
      fin_cases this <;> decide
    · right
      have : c ∈ ['-'] := hd2
      simpa using this
  · refine intercalate_chars "-" _ (fun c => c ∈ keyAlphabet ∨ c = '-')
      (by intro d hd2; right; simpa using hd2) ?_ c hd
    intro p hp d hd2
    rcases List.mem_map.mp hp with ⟨g, _, rfl⟩
    rw [toList_mk] at hd2
    rcases List.mem_map.mp hd2 with ⟨i, _, rfl⟩
    exact Or.inl (keyAlphabet_getD_mem _)

/-- Generated keys are fixed points of `_clean` (no whitespace, no quote
characters at the ends). -/
theorem pyClean_generate_key (rand : Nat → Nat) :
    pyClean (generate_key "FLUX" 4 5 rand) = generate_key "FLUX" 4 5 rand := by
  apply pyClean_eq_self
  · intro c hc
    rcases generate_key_chars rand c hc with h | h
    · exact (keyAlphabet_props c h).1
    · rw [h]; decide
  · intro c hc
    rcases generate_key_chars rand c hc with h | h
    · exact ⟨(keyAlphabet_props c h).2.2.2.1, (keyAlphabet_props c h).2.2.2.2⟩
    · rw [h]; exact ⟨by decide, by decide⟩

/-- Generated keys are fixed points of `.upper()` (already uppercase). -/
theorem pyUpper_generate_key (rand : Nat → Nat) :
    pyUpper (generate_key "FLUX" 4 5 rand) = generate_key "FLUX" 4 5 rand := by
  apply pyUpper_eq_self
  intro c hc
  rcases generate_key_chars rand c hc with h | h
  · exact (keyAlphabet_props c h).2.2.1
  · rw [h]; decide

/-! ## Store lemmas: how each SQL statement affects queries -/

/-- Touching an activation changes no per-license activation count. -/
theorem countActivations_touch (db : DB) (aid : Nat) (t : Int) (lid : Nat) :
    countActivations (touchActivation db aid t) lid = countActivations db lid := by
  unfold countActivations touchActivation
  rw [← List.countP_eq_length_filter, ← List.countP_eq_length_filter,
    List.countP_map]
  apply List.countP_congr
  intro a _
  simp only [Function.comp]
  split <;> rfl

/-- Inserting an activation row does not change the licenses table. -/
theorem touchActivation_licenses (db : DB) (aid : Nat) (t : Int) :
    (touchActivation db aid t).licenses = db.licenses := rfl

theorem insertActivation_licenses (db : DB) (lid : Nat) (m : String) (t : Int) :
    (insertActivation db lid m t).licenses = db.licenses := rfl

/-- Inserting a row for license `lid` increments exactly that license's
activation count. -/
theorem countActivations_insert (db : DB) (lid : Nat) (m : String) (t : Int)
    (lid2 : Nat) :
    countActivations (insertActivation db lid m t) lid2 =
      countActivations db lid2 + (if lid = lid2 then 1 else 0) := by
  unfold countActivations insertActivation
  rw [List.filter_append, List.length_append]
  congr 1
  by_cases h : lid = lid2
  · simp [h]
  · simp [h]

/-- Touching the row found for a (license, machine) pair: the same lookup
afterwards returns that row with `last_seen` replaced. -/
theorem findActivation_touch_self (db : DB) (lid : Nat) (m : String)
    (t : Int) (a : Activation) (ha : findActivation db lid m = some a) :
    findActivation (touchActivation db a.id t) lid m =
      some { a with last_seen := t } := by
  unfold findActivation touchActivation at *
  rw [List.find?_map]
  have hpred : (fun x : Activation => x.license_id == lid && x.machine_id == m) ∘
      (fun x : Activation => if x.id == a.id then { x with last_seen := t } else x) =
      (fun x : Activation => x.license_id == lid && x.machine_id == m) := by
    funext x
    simp only [Function.comp]
    split <;> rfl
  rw [hpred, ha]
  simp

/-- Looking up a pair after inserting that same pair (when it was absent)
finds the freshly inserted row. -/
theorem findActivation_insert_self (db : DB) (lid : Nat) (m : String) (t : Int)
    (ha : findActivation db lid m = none) :
    findActivation (insertActivation db lid m t) lid m =
      some { id := db.next_activation_id, license_id := lid, machine_id := m,
             activated_at := t, last_seen := t } := by
  unfold findActivation insertActivation at *
  rw [List.find?_append, ha]
  simp

/-- Looking up a different pair is unaffected by an insert. -/
theorem findActivation_insert_other (db : DB) (lid : Nat) (m : String)
    (t : Int) (lid2 : Nat) (m2 : String) (h : ¬(lid = lid2 ∧ m = m2)) :
    findActivation (insertActivation db lid m t) lid2 m2 =
      findActivation db lid2 m2 := by
  unfold findActivation insertActivation
  rw [List.find?_append]
  have : (List.find? (fun a : Activation => a.license_id == lid2 && a.machine_id == m2)
      [{ id := db.next_activation_id, license_id := lid, machine_id := m,
         activated_at := t, last_seen := t }]) = none := by
    simp only [List.find?_cons, List.find?_nil]
    have : ((lid == lid2) && (m == m2)) = false := by
      by_cases h2 : lid = lid2
      · have h3 : ¬(m = m2) := fun hm => h ⟨h2, hm⟩
        simp [h3]
      · simp [h2]
    simp only [this]
  rw [this]
  simp

/-- Touching an activation preserves the presence of any pair lookup
(possibly with a different `last_seen`). -/
theorem findActivation_touch_isSome (db : DB) (aid : Nat) (t : Int)
    (lid : Nat) (m : String) :
    (findActivation (touchActivation db aid t) lid m).isSome =
      (findActivation db lid m).isSome := by
  unfold findActivation touchActivation
  rw [List.find?_map]
  have hpred : (fun x : Activation => x.license_id == lid && x.machine_id == m) ∘
      (fun x : Activation => if x.id == aid then { x with last_seen := t } else x) =
      (fun x : Activation => x.license_id == lid && x.machine_id == m) := by
    funext x
    simp only [Function.comp]
    split <;> rfl
  rw [hpred]
  cases List.find? _ db.activations <;> rfl

/-! ## Validation-flow lemmas -/

/-- When the key resolves and the license is neither revoked nor expired,
`validateCleaned` runs the activation step. -/
theorem validateCleaned_eq_activationStep (db : DB) (k m : String)
    (now : Int) (lic : License) (hk : k ≠ "") (hm : m ≠ "")
    (hfind : findLicense db k = some lic) (hrev : lic.revoked = false)
    (hexp : expiryPasses lic.expires_at now = true) :
    validateCleaned db k m now = activationStep db lic k m now := by
  unfold validateCleaned
  rw [if_neg hk, if_neg hm, hfind]
  simp only [hrev, Bool.false_eq_true, if_false]
  cases hexpv : lic.expires_at with
  | none => rfl
  | some ev =>
    cases ev with
    | dt t =>
      have hle : ¬ now > t := by
        rw [hexpv] at hexp
        simpa [expiryPasses] using hexp
      dsimp only
      rw [if_neg hle]
    | strGood t =>
      have hle : ¬ now > t := by
        rw [hexpv] at hexp
        simpa [expiryPasses] using hexp
      dsimp only
      rw [if_neg hle]
    | strBad =>
      rw [hexpv] at hexp
      simp [expiryPasses] at hexp

/-- The already-bound branch of the activation step (lines 286-288). -/
theorem activationStep_existing (db : DB) (lic : License) (k m : String)
    (now : Int) (a : Activation) (ha : findActivation db lic.id m = some a) :
    activationStep db lic k m now =
      (successVerdict (touchActivation db a.id now) lic k,
       touchActivation db a.id now) := by
  unfold activationStep
  rw [ha]

/-- The capacity-exceeded branch (lines 290-291). -/
theorem activationStep_limit (db : DB) (lic : License) (k m : String)
    (now : Int) (ha : findActivation db lic.id m = none)
    (hc : (countActivations db lic.id : Int) ≥ lic.max_activations) :
    activationStep db lic k m now = (.activationLimit, db) := by
  unfold activationStep
  rw [ha]
  dsimp only
  rw [if_pos hc]

/-- The fresh-insert branch (lines 292-296). -/
theorem activationStep_insert (db : DB) (lic : License) (k m : String)
    (now : Int) (ha : findActivation db lic.id m = none)
    (hc : (countActivations db lic.id : Int) < lic.max_activations) :
    activationStep db lic k m now =
      (successVerdict (insertActivation db lic.id m now) lic k,
       insertActivation db lic.id m now) := by
  unfold activationStep
  rw [ha]
  dsimp only
  rw [if_neg (not_le.mpr hc)]

/-- The activation step never yields the `expired` verdict. -/
theorem activationStep_ne_expired (db : DB) (lic : License) (k m : String)
    (now : Int) : (activationStep db lic k m now).1 ≠ .expired := by
  unfold activationStep
  cases h : findActivation db lic.id m with
  | some a => simp [successVerdict]
  | none =>
    by_cases hc : (countActivations db lic.id : Int) ≥ lic.max_activations
    · simp [hc]
    · simp [hc, successVerdict]

/-- Validation never modifies the licenses table. -/
theorem api_validate_licenses (db : DB) (k m : String) (now : Int) :
    (api_validate db k m now).2.licenses = db.licenses := by
  unfold api_validate validateCleaned
  split
  · rfl
  · split
    · rfl
    · split
      · rfl
      · rename_i lic _
        split
        · rfl
        · have hstep : ∀ (d : DB) (lc : License) (k2 m2 : String) (t : Int),
              (activationStep d lc k2 m2 t).2.licenses = d.licenses := by
            intro d lc k2 m2 t
            unfold activationStep
            cases h : findActivation d lc.id m2 with
            | some a => rfl
            | none =>
              by_cases hc : (countActivations d lc.id : Int) ≥ lc.max_activations
              · simp [hc]
              · simp [hc]
                rfl
          split <;> first | rfl | apply hstep | (split <;> first | rfl | apply hstep)

/-- Validation never modifies `next_license_id`. -/
theorem api_validate_next_license_id (db : DB) (k m : String) (now : Int) :
    (api_validate db k m now).2.next_license_id = db.next_license_id := by
  unfold api_validate validateCleaned
  split
  · rfl
  · split
    · rfl
    · split
      · rfl
      · rename_i lic _
        split
        · rfl
        · have hstep : ∀ (d : DB) (lc : License) (k2 m2 : String) (t : Int),
              (activationStep d lc k2 m2 t).2.next_license_id = d.next_license_id := by
            intro d lc k2 m2 t
            unfold activationStep
            cases h : findActivation d lc.id m2 with
            | some a => rfl
            | none =>
              by_cases hc : (countActivations d lc.id : Int) ≥ lc.max_activations
              · simp [hc]
              · simp [hc]
                rfl
          split <;> first | rfl | apply hstep | (split <;> first | rfl | apply hstep)

/-! ## Branch-outcome lemmas for validateCleaned -/

theorem validateCleaned_missingKey (db : DB) (k m : String) (now : Int)
    (hk : k = "") : validateCleaned db k m now = (.missingKey, db) := by
  unfold validateCleaned
  rw [if_pos hk]

theorem validateCleaned_missingMachine (db : DB) (k m : String) (now : Int)
    (hk : k ≠ "") (hm : m = "") :
    validateCleaned db k m now = (.missingMachineId, db) := by
  unfold validateCleaned
  rw [if_neg hk, if_pos hm]

theorem validateCleaned_notFound (db : DB) (k m : String) (now : Int)
    (hk : k ≠ "") (hm : m ≠ "") (hf : findLicense db k = none) :
    validateCleaned db k m now = (.notFound, db) := by
  unfold validateCleaned
  rw [if_neg hk, if_neg hm, hf]

theorem validateCleaned_revoked (db : DB) (k m : String) (now : Int)
    (lic : License) (hk : k ≠ "") (hm : m ≠ "")
    (hf : findLicense db k = some lic) (hrev : lic.revoked = true) :
    validateCleaned db k m now = (.revoked, db) := by
  unfold validateCleaned
  rw [if_neg hk, if_neg hm, hf]
  dsimp only
  rw [if_pos hrev]

theorem validateCleaned_expired (db : DB) (k m : String) (now : Int)
    (lic : License) (hk : k ≠ "") (hm : m ≠ "")
    (hf : findLicense db k = some lic) (hrev : lic.revoked = false)
    (hexp : expiryPasses lic.expires_at now = false) :
    validateCleaned db k m now = (.expired, db) := by
  unfold validateCleaned
  rw [if_neg hk, if_neg hm, hf]
  simp only [hrev, Bool.false_eq_true, if_false]
  cases hexpv : lic.expires_at with
  | none =>
    rw [hexpv] at hexp
    simp [expiryPasses] at hexp
  | some ev =>
    cases ev with
    | dt t =>
      have hgt : now > t := by
        rw [hexpv] at hexp
        simpa [expiryPasses] using hexp
      dsimp only
      rw [if_pos hgt]
    | strGood t =>
      have hgt : now > t := by
        rw [hexpv] at hexp
        simpa [expiryPasses] using hexp
      dsimp only
      rw [if_pos hgt]
    | strBad => rfl

/-! ## Counting: how one validate call can change an activation count -/

theorem activationStep_count (db : DB) (lic : License) (k m : String)
    (now : Int) (lid : Nat) :
    countActivations (activationStep db lic k m now).2 lid =
      countActivations db lid ∨
    (lic.id = lid ∧ (countActivations db lid : Int) < lic.max_activations ∧
     countActivations (activationStep db lic k m now).2 lid =
       countActivations db lid + 1) := by
  cases ha : findActivation db lic.id m with
  | some a =>
    rw [activationStep_existing db lic k m now a ha]
    exact Or.inl (countActivations_touch db a.id now lid)
  | none =>
    by_cases hc : (countActivations db lic.id : Int) ≥ lic.max_activations
    · rw [activationStep_limit db lic k m now ha hc]
      exact Or.inl rfl
    · rw [activationStep_insert db lic k m now ha (not_le.mp hc)]
      rw [countActivations_insert]
      by_cases hid : lic.id = lid
      · refine Or.inr ⟨hid, ?_, ?_⟩
        · rw [← hid]
          exact not_le.mp hc
        · rw [if_pos hid]
      · rw [if_neg hid]
        exact Or.inl (by omega)

theorem api_validate_count (db : DB) (k m : String) (now : Int) (lid : Nat) :
    countActivations (api_validate db k m now).2 lid =
      countActivations db lid ∨
    (∃ lic, findLicense db (pyUpper (pyClean k)) = some lic ∧ lic.id = lid ∧
      (countActivations db lid : Int) < lic.max_activations ∧
      countActivations (api_validate db k m now).2 lid =
        countActivations db lid + 1) := by
  by_cases hk : pyUpper (pyClean k) = ""
  · have h := validateCleaned_missingKey db (pyUpper (pyClean k)) (pyClean m) now hk
    have h2 : api_validate db k m now = (.missingKey, db) := h
    rw [h2]
    exact Or.inl rfl
  · by_cases hm : pyClean m = ""
    · have h := validateCleaned_missingMachine db (pyUpper (pyClean k)) (pyClean m) now hk hm
      have h2 : api_validate db k m now = (.missingMachineId, db) := h
      rw [h2]
      exact Or.inl rfl
    · cases hf : findLicense db (pyUpper (pyClean k)) with
      | none =>
        have h := validateCleaned_notFound db (pyUpper (pyClean k)) (pyClean m) now hk hm hf
        have h2 : api_validate db k m now = (.notFound, db) := h
        rw [h2]
        exact Or.inl rfl
      | some lic =>
        by_cases hrev : lic.revoked = true
        · have h := validateCleaned_revoked db (pyUpper (pyClean k)) (pyClean m) now lic hk hm hf hrev
          have h2 : api_validate db k m now = (.revoked, db) := h
          rw [h2]
          exact Or.inl rfl
        · have hrev2 : lic.revoked = false := Bool.eq_false_iff.mpr hrev
          by_cases hexp : expiryPasses lic.expires_at now = true
          · have h := validateCleaned_eq_activationStep db (pyUpper (pyClean k)) (pyClean m) now lic hk hm hf hrev2 hexp
            have h2 : api_validate db k m now =
                activationStep db lic (pyUpper (pyClean k)) (pyClean m) now := h
            rw [h2]
            rcases activationStep_count db lic (pyUpper (pyClean k)) (pyClean m) now lid with hsame | ⟨hid, hlt, hone⟩
            · exact Or.inl hsame
            · exact Or.inr ⟨lic, rfl, hid, hlt, hone⟩
          · have hexp2 : expiryPasses lic.expires_at now = false :=
              Bool.eq_false_iff.mpr hexp
            have h := validateCleaned_expired db (pyUpper (pyClean k)) (pyClean m) now lic hk hm hf hrev2 hexp2
            have h2 : api_validate db k m now = (.expired, db) := h
            rw [h2]
            exact Or.inl rfl

/-! ## The activation-count invariant -/

/-- One validate call preserves the activation-count invariant. -/
theorem api_validate_preserves_CountInv (db : DB) (k m : String) (now : Int)
    (hnd : LicenseIdsNodup db) (hinv : CountInv db) :
    CountInv (api_validate db k m now).2 := by
  intro lic2 hmem2
  rw [api_validate_licenses] at hmem2
  rcases api_validate_count db k m now lic2.id with hsame | ⟨lic, hf, hid, hlt, hone⟩
  · rw [hsame]
    exact hinv lic2 hmem2
  · have hmem : lic ∈ db.licenses :=
      List.mem_of_find?_eq_some hf
    have heq : lic = lic2 :=
      List.inj_on_of_nodup_map hnd hmem hmem2 hid
    rw [hone]
    push_cast
    rw [heq] at hlt
    omega

/-- The invariant is preserved by any sequence of validate calls. -/
theorem runValidateCalls_preserves_CountInv (db : DB)
    (hnd : LicenseIdsNodup db) (hinv : CountInv db)
    (calls : List (String × String × Int)) :
    CountInv (runValidateCalls db calls) := by
  induction calls generalizing db with
  | nil => exact hinv
  | cons c cs ih =>
    unfold runValidateCalls
    rw [List.foldl_cons]
    have hnd2 : LicenseIdsNodup (api_validate db c.1 c.2.1 c.2.2).2 := by
      unfold LicenseIdsNodup
      rw [api_validate_licenses]
      exact hnd
    exact ih _ hnd2 (api_validate_preserves_CountInv db c.1 c.2.1 c.2.2 hnd hinv)

/-! ## Claims -/

/-- C1: For every license L, after any sequence of validate calls the number
of Activation rows for L never exceeds L's `max_activations`; moreover a
machine not yet bound to L is only ever inserted when the current count is
strictly below the cap — when the count has reached the cap, validate
returns ActivationLimitExceeded and leaves the state unchanged. -/
theorem activation_count_never_exceeds_max (db : DB)
    (hnd : LicenseIdsNodup db) (hinv : CountInv db) :
    (∀ calls : List (String × String × Int),
      CountInv (runValidateCalls db calls)) ∧
    (∀ (k m : String) (now : Int) (lic : License),
      pyUpper (pyClean k) ≠ "" → pyClean m ≠ "" →
      findLicense db (pyUpper (pyClean k)) = some lic →
      lic.revoked = false → expiryPasses lic.expires_at now = true →
      findActivation db lic.id (pyClean m) = none →
      (countActivations db lic.id : Int) ≥ lic.max_activations →
      api_validate db k m now = (.activationLimit, db)) := by
  constructor
  · exact fun calls => runValidateCalls_preserves_CountInv db hnd hinv calls
  · intro k m now lic hk hm hf hrev hexp ha hc
    have h2 : api_validate db k m now =
        activationStep db lic (pyUpper (pyClean k)) (pyClean m) now :=
      validateCleaned_eq_activationStep db _ _ now lic hk hm hf hrev hexp
    rw [h2, activationStep_limit db lic _ _ now ha hc]

/-- C1 witness: a fresh one-slot license, validated by two machines in a
row, still satisfies the invariant. -/
theorem activation_count_never_exceeds_max_witness :
    LicenseIdsNodup dbW ∧ CountInv dbW ∧
    CountInv (runValidateCalls dbW
      [("FLUX-AAAAA-BBBBB-CCCCC-DDDDD", "m1", 10),
       ("FLUX-AAAAA-BBBBB-CCCCC-DDDDD", "m2", 11)]) :=
  ⟨by decide, by decide,
   (activation_count_never_exceeds_max dbW (by decide) (by decide)).1 _⟩

/-- C2: validate's disqualifiers fire in strict short-circuit order:
unknown key → NotFound; revoked → Revoked, for every call and state (in
particular regardless of prior activations); `expires_at` set and `now`
past it → Expired; a license without `expires_at` never yields Expired. -/
theorem validate_disqualifier_order (db : DB) (k m : String) (now : Int)
    (hk : pyUpper (pyClean k) ≠ "") (hm : pyClean m ≠ "") :
    (findLicense db (pyUpper (pyClean k)) = none →
      api_validate db k m now = (.notFound, db)) ∧
    (∀ lic, findLicense db (pyUpper (pyClean k)) = some lic →
      lic.revoked = true → api_validate db k m now = (.revoked, db)) ∧
    (∀ lic t, findLicense db (pyUpper (pyClean k)) = some lic →
      lic.revoked = false →
      (lic.expires_at = some (.dt t) ∨ lic.expires_at = some (.strGood t)) →
      now > t → api_validate db k m now = (.expired, db)) ∧
    (∀ lic, findLicense db (pyUpper (pyClean k)) = some lic →
      lic.expires_at = none → (api_validate db k m now).1 ≠ .expired) := by
  refine ⟨?_, ?_, ?_, ?_⟩
  · intro hf
    exact validateCleaned_notFound db _ _ now hk hm hf
  · intro lic hf hrev
    exact validateCleaned_revoked db _ _ now lic hk hm hf hrev
  · intro lic t hf hrev hset hgt
    apply validateCleaned_expired db _ _ now lic hk hm hf hrev
    rcases hset with h | h <;>
      simp [expiryPasses, h, hgt]
  · intro lic hf hnone
    by_cases hrev : lic.revoked = true
    · have h2 : api_validate db k m now = (.revoked, db) :=
        validateCleaned_revoked db _ _ now lic hk hm hf hrev
      rw [h2]
      simp
    · have hexp : expiryPasses lic.expires_at now = true := by
        rw [hnone]
        rfl
      have h2 : api_validate db k m now =
          activationStep db lic (pyUpper (pyClean k)) (pyClean m) now :=
        validateCleaned_eq_activationStep db _ _ now lic hk hm hf
          (Bool.eq_false_iff.mpr hrev) hexp
      rw [h2]
      exact activationStep_ne_expired db lic _ _ now

/-- C2 witness: on the revoked-license store with a prior activation, the
revoked branch fires even for the already-bound machine. -/
theorem validate_disqualifier_order_witness :
    pyUpper (pyClean "FLUX-AAAAA-BBBBB-CCCCC-DDDDD") ≠ "" ∧
    pyClean "m1" ≠ "" ∧
    api_validate dbRevoked "FLUX-AAAAA-BBBBB-CCCCC-DDDDD" "m1" 10 =
      (.revoked, dbRevoked) :=
  ⟨by decide, by decide,
   (validate_disqualifier_order dbRevoked "FLUX-AAAAA-BBBBB-CCCCC-DDDDD"
     "m1" 10 (by decide) (by decide)).2.1 licRevoked (by decide) (by decide)⟩

/-- C5: a present but unparseable stored `expires_at` fails closed: for a
non-revoked license validate returns Expired, and in every case it neither
succeeds nor mutates the state. -/
theorem unparseable_expiry_fails_closed (db : DB) (k m : String) (now : Int)
    (lic : License) (hk : pyUpper (pyClean k) ≠ "") (hm : pyClean m ≠ "")
    (hf : findLicense db (pyUpper (pyClean k)) = some lic)
    (hbad : lic.expires_at = some .strBad) :
    (lic.revoked = false → api_validate db k m now = (.expired, db)) ∧
    (api_validate db k m now).1.isSuccess = false ∧
    (api_validate db k m now).2 = db := by
  by_cases hrev : lic.revoked = true
  · have h2 : api_validate db k m now = (.revoked, db) :=
      validateCleaned_revoked db _ _ now lic hk hm hf hrev
    refine ⟨fun hc => absurd hrev (by simp [hc]), ?_, ?_⟩ <;> (rw [h2]; try rfl)
  · have hrev2 : lic.revoked = false := Bool.eq_false_iff.mpr hrev
    have h2 : api_validate db k m now = (.expired, db) :=
      validateCleaned_expired db _ _ now lic hk hm hf hrev2
        (by rw [hbad]; rfl)
    refine ⟨fun _ => h2, ?_, ?_⟩ <;> (rw [h2]; try rfl)

/-- C5 witness: the bad-expiry store returns Expired. -/
theorem unparseable_expiry_fails_closed_witness :
    api_validate dbBadExpiry "FLUX-AAAAA-BBBBB-CCCCC-DDDDD" "m1" 10 =
      (.expired, dbBadExpiry) :=
  (unparseable_expiry_fails_closed dbBadExpiry
    "FLUX-AAAAA-BBBBB-CCCCC-DDDDD" "m1" 10 licBadExpiry
    (by decide) (by decide) (by decide) (by decide)).1 (by decide)

/-- C6: an empty (after cleaning) key yields MissingKey; a nonempty key
with an empty machine id yields MissingMachineId; in both cases the state
is returned completely unchanged. -/
theorem missing_inputs_reported_without_mutation (db : DB) (k m : String)
    (now : Int) :
    (pyUpper (pyClean k) = "" →
      api_validate db k m now = (.missingKey, db)) ∧
    (pyUpper (pyClean k) ≠ "" → pyClean m = "" →
      api_validate db k m now = (.missingMachineId, db)) := by
  constructor
  · intro hk
    exact validateCleaned_missingKey db _ _ now hk
  · intro hk hm
    exact validateCleaned_missingMachine db _ _ now hk hm

/-- C6 witness: a whitespace-only key and an empty machine id. -/
theorem missing_inputs_reported_without_mutation_witness :
    api_validate dbW "   " "m1" 3 = (.missingKey, dbW) ∧
    api_validate dbW "FLUX-AAAAA-BBBBB-CCCCC-DDDDD" "" 3 =
      (.missingMachineId, dbW) :=
  ⟨(missing_inputs_reported_without_mutation dbW "   " "m1" 3).1 (by decide),
   (missing_inputs_reported_without_mutation dbW
     "FLUX-AAAAA-BBBBB-CCCCC-DDDDD" "" 3).2 (by decide) (by decide)⟩

theorem findLicense_touchActivation (db : DB) (aid : Nat) (t : Int)
    (k : String) : findLicense (touchActivation db aid t) k = findLicense db k := rfl

theorem findLicense_insertActivation (db : DB) (lid : Nat) (m : String)
    (t : Int) (k : String) :
    findLicense (insertActivation db lid m t) k = findLicense db k := rfl

/-- A single validate call for an already-bound machine: Success verdict with
the count taken before the call, new state = the touched store. -/
theorem validate_bound_step (db : DB) (k m : String) (now : Int)
    (lic : License) (a : Activation)
    (hk : pyUpper (pyClean k) ≠ "") (hm : pyClean m ≠ "")
    (hf : findLicense db (pyUpper (pyClean k)) = some lic)
    (hrev : lic.revoked = false)
    (hexp : expiryPasses lic.expires_at now = true)
    (ha : findActivation db lic.id (pyClean m) = some a) :
    api_validate db k m now =
      (.success (pyUpper (pyClean k)) lic.expires_at
        (max 0 (lic.max_activations - (countActivations db lic.id : Int)))
        lic.notes,
       touchActivation db a.id now) := by
  have h2 : api_validate db k m now =
      activationStep db lic (pyUpper (pyClean k)) (pyClean m) now :=
    validateCleaned_eq_activationStep db _ _ now lic hk hm hf hrev hexp
  rw [h2, activationStep_existing db lic _ _ now a ha]
  unfold successVerdict
  rw [countActivations_touch]

/-- C4: a machine already bound to the license always revalidates to Success
with `last_seen` updated to `now` and `remaining_activations` computed from an
unchanged count, with no hypothesis on how the count compares to
`max_activations`; and repeating the call any number of times keeps
returning that same Success verdict while never changing any license's
activation count. -/
theorem validate_already_bound_idempotent (db : DB) (k m : String)
    (now : Int) (lic : License) (a : Activation)
    (hk : pyUpper (pyClean k) ≠ "") (hm : pyClean m ≠ "")
    (hf : findLicense db (pyUpper (pyClean k)) = some lic)
    (hrev : lic.revoked = false)
    (hexp : expiryPasses lic.expires_at now = true)
    (ha : findActivation db lic.id (pyClean m) = some a) :
    (api_validate db k m now).1 =
      .success (pyUpper (pyClean k)) lic.expires_at
        (max 0 (lic.max_activations - (countActivations db lic.id : Int)))
        lic.notes ∧
    findActivation (api_validate db k m now).2 lic.id (pyClean m) =
      some { a with last_seen := now } ∧
    (∀ lid, countActivations (api_validate db k m now).2 lid =
      countActivations db lid) ∧
    (∀ n, (api_validate (iterValidate db k m now n) k m now).1 =
      .success (pyUpper (pyClean k)) lic.expires_at
        (max 0 (lic.max_activations - (countActivations db lic.id : Int)))
        lic.notes ∧
      ∀ lid, countActivations (iterValidate db k m now n) lid =
        countActivations db lid) := by
  have hP : ∀ n,
      findLicense (iterValidate db k m now n) (pyUpper (pyClean k)) = some lic ∧
      (∃ a2, findActivation (iterValidate db k m now n) lic.id (pyClean m) =
        some a2) ∧
      (∀ lid, countActivations (iterValidate db k m now n) lid =
        countActivations db lid) := by
    intro n
    induction n with
    | zero => exact ⟨hf, ⟨a, ha⟩, fun _ => rfl⟩
    | succ n ih =>
      obtain ⟨hf2, ⟨a2, ha2⟩, hcnt⟩ := ih
      have hstep := validate_bound_step (iterValidate db k m now n) k m now
        lic a2 hk hm hf2 hrev hexp ha2
      have hiter : iterValidate db k m now (n + 1) =
          touchActivation (iterValidate db k m now n) a2.id now := by
        show (api_validate (iterValidate db k m now n) k m now).2 = _
        rw [hstep]
      refine ⟨?_, ?_, ?_⟩
      · rw [hiter, findLicense_touchActivation]
        exact hf2
      · exact ⟨{ a2 with last_seen := now },
          by rw [hiter]; exact findActivation_touch_self _ lic.id _ now a2 ha2⟩
      · intro lid
        rw [hiter, countActivations_touch]
        exact hcnt lid
  have hstep0 := validate_bound_step db k m now lic a hk hm hf hrev hexp ha
  refine ⟨by rw [hstep0], ?_, ?_, ?_⟩
  · rw [hstep0]
    exact findActivation_touch_self db lic.id (pyClean m) now a ha
  · intro lid
    rw [hstep0]
    exact countActivations_touch db a.id now lid
  · intro n
    obtain ⟨hf2, ⟨a2, ha2⟩, hcnt⟩ := hP n
    have hstep := validate_bound_step (iterValidate db k m now n) k m now
      lic a2 hk hm hf2 hrev hexp ha2
    refine ⟨?_, hcnt⟩
    rw [hstep]
    dsimp only
    rw [hcnt lic.id]

/-- C4 witness: machine `m1` is already bound in `dbWBound`; revalidation
succeeds and updates `last_seen` to the new timestamp. -/
theorem validate_already_bound_idempotent_witness :
    (api_validate dbWBound "FLUX-AAAAA-BBBBB-CCCCC-DDDDD" "m1" 10).1 =
      .success (pyUpper (pyClean "FLUX-AAAAA-BBBBB-CCCCC-DDDDD"))
        licW.expires_at
        (max 0 (licW.max_activations -
          (countActivations dbWBound licW.id : Int))) licW.notes ∧
    findActivation
      (api_validate dbWBound "FLUX-AAAAA-BBBBB-CCCCC-DDDDD" "m1" 10).2
      licW.id (pyClean "m1") =
      some { id := 1, license_id := 1, machine_id := "m1", activated_at := 5,
             last_seen := 10 } :=
  have h := validate_already_bound_idempotent dbWBound
    "FLUX-AAAAA-BBBBB-CCCCC-DDDDD" "m1" 10 licW
    { id := 1, license_id := 1, machine_id := "m1", activated_at := 5,
      last_seen := 5 }
    (by decide) (by decide) (by decide) (by decide) (by decide) (by decide)
  ⟨h.1, h.2.1⟩

/-- A single validate call for a fresh machine with spare capacity: Success
verdict, new state = the store with the pair inserted. -/
theorem validate_fresh_step (db : DB) (k m : String) (now : Int)
    (lic : License)
    (hk : pyUpper (pyClean k) ≠ "") (hm : pyClean m ≠ "")
    (hf : findLicense db (pyUpper (pyClean k)) = some lic)
    (hrev : lic.revoked = false)
    (hexp : expiryPasses lic.expires_at now = true)
    (ha : findActivation db lic.id (pyClean m) = none)
    (hc : (countActivations db lic.id : Int) < lic.max_activations) :
    api_validate db k m now =
      (successVerdict (insertActivation db lic.id (pyClean m) now) lic
        (pyUpper (pyClean k)),
       insertActivation db lic.id (pyClean m) now) := by
  have h2 : api_validate db k m now =
      activationStep db lic (pyUpper (pyClean k)) (pyClean m) now :=
    validateCleaned_eq_activationStep db _ _ now lic hk hm hf hrev hexp
  rw [h2, activationStep_insert db lic _ _ now ha hc]

/-- C10: machine identifiers are compared exactly — two validate calls whose
(cleaned) machine ids differ at all, in particular ids differing only in
letter case, bind as two distinct machines: both succeed, the activation
count rises by two, and two separate Activation rows exist afterwards. -/
theorem machine_ids_case_sensitive (db : DB) (k m1 m2 : String)
    (now1 now2 : Int) (lic : License)
    (hk : pyUpper (pyClean k) ≠ "")
    (hm1 : pyClean m1 ≠ "") (hm2 : pyClean m2 ≠ "")
    (hne : pyClean m1 ≠ pyClean m2)
    (hf : findLicense db (pyUpper (pyClean k)) = some lic)
    (hrev : lic.revoked = false)
    (hexp1 : expiryPasses lic.expires_at now1 = true)
    (hexp2 : expiryPasses lic.expires_at now2 = true)
    (ha1 : findActivation db lic.id (pyClean m1) = none)
    (ha2 : findActivation db lic.id (pyClean m2) = none)
    (hcap : (countActivations db lic.id : Int) + 2 ≤ lic.max_activations) :
    (api_validate db k m1 now1).1.isSuccess = true ∧
    (api_validate (api_validate db k m1 now1).2 k m2 now2).1.isSuccess = true ∧
    countActivations
      (api_validate (api_validate db k m1 now1).2 k m2 now2).2 lic.id =
      countActivations db lic.id + 2 ∧
    (∃ a1, findActivation
      (api_validate (api_validate db k m1 now1).2 k m2 now2).2 lic.id
      (pyClean m1) = some a1) ∧
    (∃ a2, findActivation
      (api_validate (api_validate db k m1 now1).2 k m2 now2).2 lic.id
      (pyClean m2) = some a2) := by
  have hc1 : (countActivations db lic.id : Int) < lic.max_activations := by
    omega
  have hstep1 := validate_fresh_step db k m1 now1 lic hk hm1 hf hrev hexp1
    ha1 hc1
  have hdb1 : (api_validate db k m1 now1).2 =
      insertActivation db lic.id (pyClean m1) now1 := by
    rw [hstep1]
  have hf1 : findLicense (api_validate db k m1 now1).2
      (pyUpper (pyClean k)) = some lic := by
    rw [hdb1, findLicense_insertActivation]
    exact hf
  have hcnt1 : countActivations (api_validate db k m1 now1).2 lic.id =
      countActivations db lic.id + 1 := by
    rw [hdb1, countActivations_insert, if_pos rfl]
  have hfind1 : findActivation (api_validate db k m1 now1).2 lic.id
      (pyClean m2) = none := by
    rw [hdb1, findActivation_insert_other db lic.id (pyClean m1) now1 lic.id
      (pyClean m2) (fun hpair => hne hpair.2)]
    exact ha2
  have hc2 : (countActivations (api_validate db k m1 now1).2 lic.id : Int) <
      lic.max_activations := by
    rw [hcnt1]
    push_cast
    omega
  have hstep2 := validate_fresh_step (api_validate db k m1 now1).2 k m2 now2
    lic hk hm2 hf1 hrev hexp2 hfind1 hc2
  have hdb2 : (api_validate (api_validate db k m1 now1).2 k m2 now2).2 =
      insertActivation (api_validate db k m1 now1).2 lic.id (pyClean m2)
        now2 := by
    rw [hstep2]
  refine ⟨by rw [hstep1]; rfl, by rw [hstep2]; rfl, ?_, ?_, ?_⟩
  · rw [hdb2, countActivations_insert, if_pos rfl, hcnt1]
  · refine ⟨{ id := db.next_activation_id,
              license_id := lic.id,
              machine_id := pyClean m1,
              activated_at := now1,
              last_seen := now1 }, ?_⟩
    rw [hdb2, findActivation_insert_other _ lic.id (pyClean m2) now2 lic.id
      (pyClean m1) (fun hpair => hne hpair.2.symm), hdb1]
    exact findActivation_insert_self db lic.id (pyClean m1) now1 ha1
  · refine ⟨{ id := (api_validate db k m1 now1).2.next_activation_id,
              license_id := lic.id,
              machine_id := pyClean m2,
              activated_at := now2,
              last_seen := now2 }, ?_⟩
    rw [hdb2]
    exact findActivation_insert_self _ lic.id (pyClean m2) now2 hfind1

/-- C10 witness: machine ids `m1` and `M1`, differing only in case, consume
two separate slots of the two-slot license in `dbW2`. -/
theorem machine_ids_case_sensitive_witness :
    (api_validate dbW2 "FLUX-AAAAA-BBBBB-CCCCC-DDDDD" "m1" 10).1.isSuccess =
      true ∧
    (api_validate (api_validate dbW2 "FLUX-AAAAA-BBBBB-CCCCC-DDDDD" "m1" 10).2
      "FLUX-AAAAA-BBBBB-CCCCC-DDDDD" "M1" 11).1.isSuccess = true ∧
    countActivations
      (api_validate (api_validate dbW2 "FLUX-AAAAA-BBBBB-CCCCC-DDDDD" "m1"
        10).2 "FLUX-AAAAA-BBBBB-CCCCC-DDDDD" "M1" 11).2 licW2.id =
      countActivations dbW2 licW2.id + 2 ∧
    (∃ a1, findActivation
      (api_validate (api_validate dbW2 "FLUX-AAAAA-BBBBB-CCCCC-DDDDD" "m1"
        10).2 "FLUX-AAAAA-BBBBB-CCCCC-DDDDD" "M1" 11).2 licW2.id
      (pyClean "m1") = some a1) ∧
    (∃ a2, findActivation
      (api_validate (api_validate dbW2 "FLUX-AAAAA-BBBBB-CCCCC-DDDDD" "m1"
        10).2 "FLUX-AAAAA-BBBBB-CCCCC-DDDDD" "M1" 11).2 licW2.id
      (pyClean "M1") = some a2) :=
  machine_ids_case_sensitive dbW2 "FLUX-AAAAA-BBBBB-CCCCC-DDDDD" "m1" "M1"
    10 11 licW2 (by decide) (by decide) (by decide) (by decide) (by decide)
    (by decide) (by decide) (by decide) (by decide) (by decide) (by decide)

/-- C7: admin create-time coercions — a non-positive or non-numeric
days input yields no expiry; a non-positive or non-numeric max_activations
input is coerced to 1; every created license has max_activations ≥ 1; and a
license created with expiry "0 days" (on a store with no stray activation
rows for the fresh id) validates successfully at every later time. -/
theorem admin_create_coercions :
    (∀ s, pyInt s = none → parse_days s = none) ∧
    (∀ s d, pyInt s = some d → d ≤ 0 → parse_days s = none) ∧
    (∀ (db : DB) (days_str max_str notes k : String) (now : Int)
      (db2 : DB) (lic : License),
      api_create_key db days_str max_str notes k now = .ok (db2, lic) →
      (parse_days days_str = none → lic.expires_at = none) ∧
      1 ≤ lic.max_activations ∧
      ((pyInt (pyClean max_str) = none ∨
        ∃ v, pyInt (pyClean max_str) = some v ∧ v ≤ 0) →
        lic.max_activations = 1)) ∧
    (∀ (db : DB) (max_str notes k : String) (now : Int) (db2 : DB)
      (lic : License) (t : Int) (m : String),
      api_create_key db "0" max_str notes k now = .ok (db2, lic) →
      pyUpper (pyClean k) = k → k ≠ "" → pyClean m ≠ "" →
      (∀ a ∈ db.activations, a.license_id ≠ db.next_license_id) →
      (api_validate db2 k m t).1.isSuccess = true) := by
  refine ⟨?_, ?_, ?_, ?_⟩
  · intro s h
    unfold parse_days
    rw [h]
  · intro s d h hle
    unfold parse_days
    rw [h]
    dsimp only
    rw [if_pos hle]
  · intro db days_str max_str notes k now db2 lic hok
    unfold api_create_key at hok
    dsimp only at hok
    split at hok
    · cases hok
    · rw [Except.ok.injEq, Prod.mk.injEq] at hok
      obtain ⟨hdb2, hlic⟩ := hok
      refine ⟨?_, ?_, ?_⟩
      · intro hnone
        rw [← hlic]
        dsimp only
        rw [hnone]
      · rw [← hlic]
        dsimp only
        cases hpi : pyInt (pyClean max_str) with
        | none => dsimp only; exact le_refl 1
        | some v => dsimp only; exact le_max_left 1 v
      · intro hsmall
        rw [← hlic]
        dsimp only
        rcases hsmall with hnone | ⟨v, hv, hvle⟩
        · rw [hnone]
        · rw [hv]
          dsimp only
          exact max_eq_left (by omega)
  · intro db max_str notes k now db2 lic t m hok hkfix hkne hm hfresh
    unfold api_create_key at hok
    dsimp only at hok
    split at hok
    · cases hok
    · rename_i hany
      rw [Except.ok.injEq, Prod.mk.injEq] at hok
      obtain ⟨hdb2, hlic⟩ := hok
      have hkey : lic.lic_key = k := by rw [← hlic]
      have hid : lic.id = db.next_license_id := by rw [← hlic]
      have hrevl : lic.revoked = false := by rw [← hlic]
      have hexpl : lic.expires_at = none := by
        rw [← hlic]
        rfl
      have hmax : 1 ≤ lic.max_activations := by
        rw [← hlic]
        dsimp only
        cases hpi : pyInt (pyClean max_str) with
        | none => dsimp only; exact le_refl 1
        | some v => dsimp only; exact le_max_left 1 v
      have hlicenses : db2.licenses = db.licenses ++ [lic] := by
        rw [← hdb2, hlic]
      have hacts : db2.activations = db.activations := by
        rw [← hdb2]
      have hfl : findLicense db2 (pyUpper (pyClean k)) = some lic := by
        rw [hkfix]
        unfold findLicense
        rw [hlicenses, List.find?_append]
        have hpref : List.find? (fun l => l.lic_key == k) db.licenses =
            none := by
          rw [List.find?_eq_none]
          intro x hx hxk
          exact hany (List.any_eq_true.mpr ⟨x, hx, hxk⟩)
        rw [hpref]
        simp [List.find?_cons, hkey]
      have hfa : findActivation db2 lic.id (pyClean m) = none := by
        unfold findActivation
        rw [hacts, List.find?_eq_none]
        intro x hx
        have hne := hfresh x hx
        rw [← hid] at hne
        simp [hne]
      have hcnt : countActivations db2 lic.id = 0 := by
        unfold countActivations
        rw [hacts, List.length_eq_zero, List.filter_eq_nil_iff]
        intro x hx
        have hne := hfresh x hx
        rw [← hid] at hne
        simp [hne]
      have hsucc := validate_fresh_step db2 k m t lic
        (by rw [hkfix]; exact hkne) hm hfl hrevl (by rw [hexpl]; rfl) hfa
        (by rw [hcnt]; push_cast; omega)
      rw [hsucc]
      rfl

/-- C7 witness: creating with days "0" and max_activations "-5" on the empty
store yields a never-expiring, one-slot license that validates successfully
far in the future; and a non-numeric day count parses to no expiry. -/
theorem admin_create_coercions_witness :
    parse_days "abc" = none ∧
    (api_validate
      { licenses := [{ id := 1, lic_key := "FLUX-11111-22222-33333-44444",
                       created_at := 0, expires_at := none,
                       max_activations := 1, revoked := false,
                       notes := "n" }],
        activations := [], next_license_id := 2, next_activation_id := 1 }
      "FLUX-11111-22222-33333-44444" "m1" 999999999).1.isSuccess = true :=
  ⟨admin_create_coercions.1 "abc" (by decide),
   admin_create_coercions.2.2.2 emptyDB "-5" "n"
     "FLUX-11111-22222-33333-44444" 0 _
     { id := 1, lic_key := "FLUX-11111-22222-33333-44444", created_at := 0,
       expires_at := none, max_activations := 1, revoked := false,
       notes := "n" }
     999999999 "m1" rfl (by decide) (by decide) (by decide)
     (by decide)⟩

/-- C8: a key produced by `generate_key`, used to create a license on a
store where it is fresh, then immediately passed through the case-normalizing
lookup of the validation path, resolves to the very license that create
produced. -/
theorem generate_key_roundtrip (db : DB) (rand : Nat → Nat)
    (days_str max_str notes : String) (now : Int)
    (hfresh : ∀ l ∈ db.licenses, l.lic_key ≠ generate_key "FLUX" 4 5 rand) :
    ∃ db2 lic,
      api_create_key db days_str max_str notes
        (generate_key "FLUX" 4 5 rand) now = .ok (db2, lic) ∧
      lic.lic_key = generate_key "FLUX" 4 5 rand ∧
      findLicense db2 (pyUpper (pyClean (generate_key "FLUX" 4 5 rand))) =
        some lic := by
  have hany : (db.licenses.any
      (fun l => l.lic_key == generate_key "FLUX" 4 5 rand)) = false := by
    rw [List.any_eq_false]
    intro x hx hxk
    exact hfresh x hx (by simpa using hxk)
  have hok : api_create_key db days_str max_str notes
      (generate_key "FLUX" 4 5 rand) now = .ok
      ({ db with
         licenses := db.licenses ++
           [{ id := db.next_license_id,
              lic_key := generate_key "FLUX" 4 5 rand, created_at := now,
              expires_at :=
                match parse_days days_str with
                | none => none
                | some d => some (.dt (now + d * secondsPerDay)),
              max_activations :=
                match pyInt (pyClean max_str) with
                | none => 1
                | some v => max 1 v,
              revoked := false, notes := pyClean notes }],
         next_license_id := db.next_license_id + 1 },
       { id := db.next_license_id,
         lic_key := generate_key "FLUX" 4 5 rand, created_at := now,
         expires_at :=
           match parse_days days_str with
           | none => none
           | some d => some (.dt (now + d * secondsPerDay)),
         max_activations :=
           match pyInt (pyClean max_str) with
           | none => 1
           | some v => max 1 v,
         revoked := false, notes := pyClean notes }) := by
    unfold api_create_key
    dsimp only
    rw [hany]
    rfl
  refine ⟨_, _, hok, rfl, ?_⟩
  rw [pyClean_generate_key, pyUpper_generate_key]
  unfold findLicense
  dsimp only
  rw [List.find?_append]
  have hpref : List.find?
      (fun l => l.lic_key == generate_key "FLUX" 4 5 rand) db.licenses =
      none := by
    rw [List.find?_eq_none]
    intro x hx hxk
    exact hfresh x hx (by simpa using hxk)
  rw [hpref]
  simp [List.find?_cons]

/-- C8 witness: on the empty store, any fixed draw sequence gives a key
whose create-then-lookup round-trip resolves. -/
theorem generate_key_roundtrip_witness :
    (∀ l ∈ emptyDB.licenses, l.lic_key ≠ generate_key "FLUX" 4 5 id) ∧
    ∃ db2 lic,
      api_create_key emptyDB "30" "3" "note" (generate_key "FLUX" 4 5 id)
        0 = .ok (db2, lic) ∧
      lic.lic_key = generate_key "FLUX" 4 5 id ∧
      findLicense db2 (pyUpper (pyClean (generate_key "FLUX" 4 5 id))) =
        some lic :=
  ⟨by decide,
   generate_key_roundtrip emptyDB id "30" "3" "note" 0 (by decide)⟩

/-- C9: every key produced by `generate_key` (at its call-site parameters:
prefix FLUX, 4 groups of length 5) is the prefix, then the separator-joined
groups; each group has exactly 5 characters drawn from the uppercase+digits
alphabet, and the whole key contains no lowercase character. -/
theorem generate_key_format (rand : Nat → Nat) :
    ∃ parts : List String,
      generate_key "FLUX" 4 5 rand =
        "FLUX" ++ "-" ++ String.intercalate "-" parts ∧
      parts.length = 4 ∧
      (∀ p ∈ parts, p.length = 5 ∧ ∀ c ∈ p.toList, c ∈ keyAlphabet) ∧
      (∀ c ∈ (generate_key "FLUX" 4 5 rand).toList, c.isLower = false) := by
  refine ⟨(List.range 4).map (fun g =>
      String.mk ((List.range 5).map (fun i =>
        keyAlphabet.getD (rand (g * 5 + i) % keyAlphabet.length) 'A'))),
    rfl, by simp, ?_, ?_⟩
  · intro p hp
    rcases List.mem_map.mp hp with ⟨g, _, rfl⟩
    constructor
    · simp [String.length]
    · intro c hc
      rw [toList_mk] at hc
      rcases List.mem_map.mp hc with ⟨i, _, rfl⟩
      exact keyAlphabet_getD_mem _
  · intro c hc
    rcases generate_key_chars rand c hc with h | h
    · exact (keyAlphabet_props c h).2.1
    · rw [h]
      decide

/-- C9 witness: the format at one concrete draw sequence. -/
theorem generate_key_format_witness :
    ∃ parts : List String,
      generate_key "FLUX" 4 5 (fun i => i * 7) =
        "FLUX" ++ "-" ++ String.intercalate "-" parts ∧
      parts.length = 4 ∧
      (∀ p ∈ parts, p.length = 5 ∧ ∀ c ∈ p.toList, c ∈ keyAlphabet) ∧
      (∀ c ∈ (generate_key "FLUX" 4 5 (fun i => i * 7)).toList,
        c.isLower = false) :=
  generate_key_format (fun i => i * 7)

/-- With no interleaved change (read state = write state) the interleaved
model coincides with `activationStep`: the split-state model is a
conservative extension of the sequential embedding. -/
theorem activationStepInterleaved_diag (db : DB) (lic : License)
    (k m : String) (now : Int) :
    activationStepInterleaved db db lic k m now =
      .ok (activationStep db lic k m now) := by
  unfold activationStepInterleaved activationStep insertActivationChecked
  cases ha : findActivation db lic.id m with
  | some a => rfl
  | none =>
    dsimp only
    by_cases hc : (countActivations db lic.id : Int) ≥ lic.max_activations
    · rw [if_pos hc, if_pos hc]
    · rw [if_neg hc, if_neg hc]
      have hnone : (db.activations.any
          (fun a => a.license_id == lic.id && a.machine_id == m)) = false := by
        rw [List.any_eq_false]
        intro x hx
        exact List.find?_eq_none.mp ha x hx
      rw [hnone]
      rfl

/-- C3 (refuting the claim as a description of the code): in the §5 race —
the (license 1, "m1") lookup sees no row in the read state `dbW`, but the
pair exists in the write state `dbWBound` when the INSERT runs — the code's
INSERT, wrapped in no try/except, propagates the UNIQUE-constraint failure
as an unhandled error instead of recovering to the already-present branch
and returning Success. -/
theorem duplicate_activation_race_unhandled :
    findActivation dbW licW.id "m1" = none ∧
    findActivation dbWBound licW.id "m1" =
      some { id := 1, license_id := 1, machine_id := "m1", activated_at := 5,
             last_seen := 5 } ∧
    activationStepInterleaved dbW dbWBound licW
      "FLUX-AAAAA-BBBBB-CCCCC-DDDDD" "m1" 10 = .error () := by
  refine ⟨by decide, by decide, ?_⟩
  rfl

end Flux
